import Mathlib

/-!
Verification development for the langcheck model-backed scoring pipeline
(`langcheck.metrics.scorer.hf_models.AutoModelForSequenceClassificationScorer`
and the lazily cached model loading in `langcheck.metrics.model_manager`).

The Python code is shallowly embedded as follows:
* a tokenizer is an abstract function `encode : String → List Nat` producing
  the token ids of a string (used both for the batch call
  `self.tokenizer(inputs, padding=True, truncation=True, max_length=...)`
  and for the validation call `self.tokenizer.encode(input_str)`);
* a classification model is an abstract function from an encoded batch to a
  logits matrix, one row per batch row;
* tensors are lists of rationals (ℚ idealises float32), a `BatchEncoding`
  is a dict from keys to equal-length arrays, and the exponential used by
  softmax is an abstract parameter `exp : ℚ → ℚ` so that softmax stays
  executable;
* Python exceptions (`ValueError`, `AssertionError`, `IndexError`) become
  `Except` error values.
-/

/-- Python exceptions of the scoring pipeline as error values: `.tooLong`
is the `ValueError('Some of the inputs are too long.')` raised by
`_tokenize` under the `raise` overflow strategy, `.assertionFailed` is the
failure of its statement `assert self.overflow_strategy == 'nullify'`, and
`.indexError` is the torch `IndexError` from `probs[:, i]` in
`_logits_to_scores` when `i` is not smaller than the number of model
output classes. -/
inductive PyError where
  | tooLong
  | assertionFailed
  | indexError
deriving DecidableEq, Repr

/-- Embedding of the scorer state built by
`AutoModelForSequenceClassificationScorer.__init__` (the tokenizer and model
fetched from the model manager are kept abstract and passed to each operation
separately). `__init__` stores `overflow_strategy` and `class_weights` as
given, and uses `max_input_length` when not `None`, otherwise the model
config value `max_position_embeddings`. -/
structure Scorer where
  overflowStrategy : String
  classWeights : List ℚ
  maxInputLength : Nat
deriving DecidableEq, Repr

/-- `AutoModelForSequenceClassificationScorer.__init__`: stores the
configuration; no validation of `overflow_strategy` or `class_weights`
happens here. -/
def initScorer (overflowStrategy : String) (classWeights : List ℚ)
    (maxInputLength : Option Nat) (maxPositionEmbeddings : Nat) : Scorer :=
  { overflowStrategy := overflowStrategy
    classWeights := classWeights
    maxInputLength := maxInputLength.getD maxPositionEmbeddings }

/-- The batch call `self.tokenizer(inputs, padding=True, truncation=True,
max_length=max_len)`: each string is encoded, truncated to `max_len` tokens,
and padded (with id 0) to the longest row so the batch is rectangular. -/
def batchEncode (encode : String → List Nat) (maxLen : Nat)
    (inputs : List String) : List (List Nat) :=
  let rows := inputs.map (fun s => (encode s).take maxLen)
  let width := rows.foldr (fun r acc => max r.length acc) 0
  rows.map (fun r => r ++ List.replicate (width - r.length) 0)

/-- `AutoModelForSequenceClassificationScorer._validate_inputs`: for each
input string, encode it (no padding, no truncation) and record whether the
number of token ids is at most `max_input_length`. -/
def validateInputs (encode : String → List Nat) (maxLen : Nat)
    (inputs : List String) : List Bool :=
  inputs.map (fun s => decide ((encode s).length ≤ maxLen))

/-- `AutoModelForSequenceClassificationScorer._tokenize`: always builds the
padded-and-truncated batch; under `truncate` returns it with every flag
`True`; otherwise validates every input, raises under `raise` when some
input is invalid, then asserts the strategy is `nullify` and returns the
batch with the per-item validity flags. -/
def tokenize (encode : String → List Nat) (maxLen : Nat) (strategy : String)
    (inputs : List String) :
    Except PyError (List (List Nat) × List Bool) :=
  let truncatedTokens := batchEncode encode maxLen inputs
  if strategy = "truncate" then
    .ok (truncatedTokens, List.replicate inputs.length true)
  else
    let inputValidationResults := validateInputs encode maxLen inputs
    if strategy = "raise" ∧ ¬ (inputValidationResults.all id) then
      .error .tooLong
    else if strategy = "nullify" then
      .ok (truncatedTokens, inputValidationResults)
    else
      .error .assertionFailed

/-- Row-wise `torch.nn.functional.softmax(logits, dim=1)` with the
exponential kept abstract: each entry is exponentiated and divided by the
row sum of exponentials. -/
def softmaxRow (exp : ℚ → ℚ) (row : List ℚ) : List ℚ :=
  let exps := row.map exp
  exps.map (fun x => x / exps.sum)

/-- The accumulation loop of `_logits_to_scores` on one row of
probabilities: `scores += probs[:, i] * class_weight` for each index `i` of
`class_weights`, i.e. the sum of `probs[i] * class_weights[i]` over the
indices of `class_weights` (which all exist in `probs` whenever the code
does not raise). -/
def weightedSum (classWeights probs : List ℚ) : ℚ :=
  (List.zipWith (fun w p => p * w) classWeights probs).sum

/-- `AutoModelForSequenceClassificationScorer._logits_to_scores` on the
non-raising path: softmax each row, then reduce with `class_weights`. -/
def logitsToScores (exp : ℚ → ℚ) (classWeights : List ℚ)
    (logits : List (List ℚ)) : List ℚ :=
  logits.map (fun row => weightedSum classWeights (softmaxRow exp row))

/-- `AutoModelForSequenceClassificationScorer._logits_to_scores` with its
failure mode: `probs[:, i]` raises `IndexError` exactly when some index `i`
of `class_weights` is out of range for the class axis, i.e. when
`class_weights` is longer than some row. -/
def logitsToScoresE (exp : ℚ → ℚ) (classWeights : List ℚ)
    (logits : List (List ℚ)) : Except PyError (List ℚ) :=
  if ∀ row ∈ logits, classWeights.length ≤ row.length then
    .ok (logitsToScores exp classWeights logits)
  else
    .error .indexError

/-- The post-processing loop of `_score_tokens`:
`for i, validation_result in enumerate(validation_results): if not
validation_result: scores[i] = None`, walking the scores and flags in
parallel (when the flags run out the remaining scores are untouched, as in
the source). -/
def nullifyScores {α : Type} : List (Option α) → List Bool → List (Option α)
  | [], _ => []
  | scores, [] => scores
  | score :: scores, flag :: flags =>
      (if flag then score else none) :: nullifyScores scores flags

/-- `AutoModelForSequenceClassificationScorer._score_tokens`: run the model
on the encoded batch, turn the logits into scores via `_logits_to_scores`
(propagating its `IndexError` when `class_weights` is longer than the class
axis), then replace the score with `None` at every index whose validity
flag is false. -/
def scoreTokens (model : List (List Nat) → List (List ℚ)) (exp : ℚ → ℚ)
    (classWeights : List ℚ) (tokens : List (List Nat) × List Bool) :
    Except PyError (List (Option ℚ)) :=
  match logitsToScoresE exp classWeights (model tokens.1) with
  | .error e => .error e
  | .ok scores => .ok (nullifyScores (scores.map some) tokens.2)

/-- Python slice `l[start:end]` for non-negative bounds. -/
def pySlice {α : Type} (l : List α) (startIdx endIdx : Nat) : List α :=
  (l.drop startIdx).take (endIdx - startIdx)

/-- `AutoModelForSequenceClassificationScorer._slice_tokens`: slice every
array of the `BatchEncoding` dict and the validity-flag list over the same
`[start_idx:end_idx]` range. -/
def sliceTokens {α : Type} (tokens : List (String × List α) × List Bool)
    (startIdx endIdx : Nat) : List (String × List α) × List Bool :=
  (tokens.1.map (fun kv => (kv.1, pySlice kv.2 startIdx endIdx)),
   pySlice tokens.2 startIdx endIdx)

/-- Modelled from the spec: the scorer facade composition
(`BaseSingleScorer._score`, in `_base.py`, is not under `src/`). Per §4.5 it
tokenizes the texts via `_tokenize` and then scores the resulting batch via
`_score_tokens`, propagating the errors of both steps. -/
def scoreTexts (encode : String → List Nat) (maxLen : Nat) (strategy : String)
    (model : List (List Nat) → List (List ℚ)) (exp : ℚ → ℚ)
    (classWeights : List ℚ) (inputs : List String) :
    Except PyError (List (Option ℚ)) :=
  match tokenize encode maxLen strategy inputs with
  | .error e => .error e
  | .ok tokens => scoreTokens model exp classWeights tokens

/-- The dot product of a probability vector and the class-weight vector, as
the spec words the reduction of `_logits_to_scores`; compared against
`weightedSum` from the source. -/
def specDotProduct (probs classWeights : List ℚ) : ℚ :=
  (List.zipWith (fun p w => p * w) probs classWeights).sum

/-- Modelled from the spec: `ModelManager.fetch_model` of
`langcheck.metrics.model_manager` (not under `src/`; its lazy in-place
caching pattern is the one visible in
`langcheck.eval.reference_free_text_quality.sentiment` / `fluency`). The
cache maps a `(language, metric)` key to a loaded pair; a hit returns the
stored pair unchanged, a miss calls the loader once and stores the result.
The third component counts the loads performed by the call. -/
def cacheLookup {κ M : Type} [DecidableEq κ] : List (κ × M) → κ → Option M
  | [], _ => none
  | (k, m) :: rest, key => if key = k then some m else cacheLookup rest key

/-- Modelled from the spec: one `fetch(language, metric)` call on the model
cache (see `cacheLookup`). -/
def fetchModel {κ M : Type} [DecidableEq κ] (loader : κ → M)
    (cache : List (κ × M)) (key : κ) : M × List (κ × M) × Nat :=
  match cacheLookup cache key with
  | some m => (m, cache, 0)
  | none => (loader key, (key, loader key) :: cache, 1)

/-! ### Helper lemmas -/

theorem batchEncode_length (encode : String → List Nat) (maxLen : Nat)
    (inputs : List String) :
    (batchEncode encode maxLen inputs).length = inputs.length := by
  simp [batchEncode]

theorem validateInputs_length (encode : String → List Nat) (maxLen : Nat)
    (inputs : List String) :
    (validateInputs encode maxLen inputs).length = inputs.length := by
  simp [validateInputs]

theorem validateInputs_getElem? (encode : String → List Nat) (maxLen : Nat)
    (inputs : List String) (i : Nat) (hi : i < inputs.length) :
    (validateInputs encode maxLen inputs)[i]?
      = some (decide ((encode inputs[i]).length ≤ maxLen)) := by
  simp [validateInputs, List.getElem?_map, List.getElem?_eq_getElem hi]

theorem softmaxRow_length (exp : ℚ → ℚ) (row : List ℚ) :
    (softmaxRow exp row).length = row.length := by
  simp [softmaxRow]

theorem logitsToScores_length (exp : ℚ → ℚ) (classWeights : List ℚ)
    (logits : List (List ℚ)) :
    (logitsToScores exp classWeights logits).length = logits.length := by
  simp [logitsToScores]

theorem nullifyScores_length {α : Type} (scores : List (Option α))
    (flags : List Bool) :
    (nullifyScores scores flags).length = scores.length := by
  induction scores generalizing flags with
  | nil => cases flags <;> simp [nullifyScores]
  | cons a as ih =>
    cases flags with
    | nil => simp [nullifyScores]
    | cons b bs => simp [nullifyScores, ih]

theorem nullifyScores_getElem? {α : Type} (scores : List (Option α))
    (flags : List Bool) (hlen : scores.length = flags.length) (i : Nat)
    (hi : i < flags.length) :
    (nullifyScores scores flags)[i]?
      = if flags[i] then scores[i]? else some none := by
  induction scores generalizing flags i with
  | nil =>
    cases flags with
    | nil => exact absurd hi (by simp)
    | cons b bs => exact absurd hlen (by simp)
  | cons a as ih =>
    cases flags with
    | nil => exact absurd hi (by simp)
    | cons b bs =>
      cases i with
      | zero => cases b <;> simp [nullifyScores]
      | succ j =>
        have hlen' : as.length = bs.length := by simpa using hlen
        have hj : j < bs.length := by simpa using hi
        cases b <;> simpa [nullifyScores] using ih bs hlen' j hj

theorem weightedSum_eq_specDotProduct (classWeights probs : List ℚ) :
    weightedSum classWeights probs = specDotProduct probs classWeights := by
  unfold weightedSum specDotProduct
  rw [List.zipWith_comm (fun w p => p * w)]

theorem scoreTokens_ok (model : List (List Nat) → List (List ℚ))
    (exp : ℚ → ℚ) (classWeights : List ℚ) (batch : List (List Nat))
    (flags : List Bool)
    (hw : ∀ row ∈ model batch, classWeights.length ≤ row.length) :
    scoreTokens model exp classWeights (batch, flags)
      = .ok (nullifyScores
          ((logitsToScores exp classWeights (model batch)).map some) flags) := by
  unfold scoreTokens
  rw [logitsToScoresE, if_pos hw]

/-! ### Claim theorems -/

/-- C1: under the `raise` overflow strategy, a batch containing an input
whose tokenized length exceeds `max_input_length` is rejected whole by
`_tokenize` with the too-long error before any inference runs (the facade
returns no scores); but the claim that no error is raised when every input
fits fails on the code: with every input within the limit, control falls
through to `assert self.overflow_strategy == 'nullify'`, which fails, so
`_tokenize` raises an `AssertionError` on every all-valid `raise` batch.
Token ids here are one id per character, `max_input_length = 5`. -/
theorem C1_raise_rejects_whole_batch_but_asserts_when_all_fit :
    tokenize (fun s => List.replicate s.length 0) 5 "raise"
        ["hi", "waytoolongstring"] = .error .tooLong
    ∧ scoreTexts (fun s => List.replicate s.length 0) 5 "raise"
        (fun b => b.map (fun _ => [1])) id [1] ["hi", "waytoolongstring"]
        = .error .tooLong
    ∧ tokenize (fun s => List.replicate s.length 0) 5 "raise" ["hi"]
        = .error .assertionFailed :=
  ⟨rfl, rfl, rfl⟩

/-- C7: `_validate_inputs` returns one flag per input, and the flag at
index `i` is true if and only if the token count of input `i` encoded with
the tokenizer (no padding, no truncation) is at most `max_input_length`;
the embedding is a pure function of the tokenizer, the inputs and the
limit, so it has no side effects beyond the encode calls. -/
theorem C7_validator_iff_token_count_within_limit
    (encode : String → List Nat) (maxLen : Nat) (inputs : List String)
    (i : Nat) (hi : i < inputs.length) :
    (validateInputs encode maxLen inputs).length = inputs.length
    ∧ ((validateInputs encode maxLen inputs)[i]? = some true
        ↔ (encode inputs[i]).length ≤ maxLen) := by
  refine ⟨validateInputs_length _ _ _, ?_⟩
  rw [validateInputs_getElem? encode maxLen inputs i hi]
  simp

/-- Witness for C7 at a concrete tokenizer (one id per character),
limit 3, inputs `["ab", "abcd"]`, index 1. -/
theorem C7_validator_iff_token_count_within_limit_witness :
    1 < (["ab", "abcd"] : List String).length
    ∧ ((validateInputs (fun s => List.replicate s.length 7) 3
          ["ab", "abcd"]).length = 2
       ∧ ((validateInputs (fun s => List.replicate s.length 7) 3
             ["ab", "abcd"])[1]? = some true
          ↔ (List.replicate ("abcd" : String).length 7).length ≤ 3)) :=
  ⟨by decide,
   C7_validator_iff_token_count_within_limit
     (fun s => List.replicate s.length 7) 3 ["ab", "abcd"] 1 (by decide)⟩

/-- C9: the model cache loads at most once per key: the first fetch for a
key performs the load and stores the pair, a subsequent fetch for the same
key returns the identical stored pair with zero loads (in general, any
fetch hitting a cached entry returns it unchanged with zero loads), and a
fetch for a different key performs exactly one new load. -/
theorem C9_model_cache_loads_at_most_once_per_key {M : Type}
    (loader : String × String → M) (k k2 : String × String) (hkk : k ≠ k2)
    (cache : List ((String × String) × M)) (m : M) :
    fetchModel loader [] k = (loader k, [(k, loader k)], 1)
    ∧ fetchModel loader [(k, loader k)] k = (loader k, [(k, loader k)], 0)
    ∧ (fetchModel loader [(k, loader k)] k2).2.2 = 1
    ∧ (cacheLookup cache k = some m → fetchModel loader cache k = (m, cache, 0)) := by
  refine ⟨rfl, ?_, ?_, ?_⟩
  · simp [fetchModel, cacheLookup]
  · simp [fetchModel, cacheLookup, Ne.symm hkk]
  · intro h
    simp [fetchModel, h]

/-- Witness for C9 with keys `(en, sentiment)` and `(en, fluency)` and a
constant loader. -/
theorem C9_model_cache_loads_at_most_once_per_key_witness :
    (("en", "sentiment") : String × String) ≠ ("en", "fluency")
    ∧ (fetchModel (fun _ => (0 : Nat)) [] ("en", "sentiment")
         = (0, [(("en", "sentiment"), 0)], 1)
       ∧ fetchModel (fun _ => (0 : Nat)) [(("en", "sentiment"), 0)]
           ("en", "sentiment") = (0, [(("en", "sentiment"), 0)], 0)
       ∧ (fetchModel (fun _ => (0 : Nat)) [(("en", "sentiment"), 0)]
            ("en", "fluency")).2.2 = 1
       ∧ (cacheLookup [(("en", "sentiment"), 0)] ("en", "sentiment") = some 0 →
            fetchModel (fun _ => (0 : Nat)) [(("en", "sentiment"), 0)]
              ("en", "sentiment") = (0, [(("en", "sentiment"), 0)], 0))) :=
  ⟨by decide,
   C9_model_cache_loads_at_most_once_per_key (fun _ => (0 : Nat))
     ("en", "sentiment") ("en", "fluency") (by decide)
     [(("en", "sentiment"), 0)] 0⟩

/-- C10: for a strategy string outside the three recognized values,
construction succeeds and stores the string unvalidated, and `_tokenize` on
any non-empty input list reaches `assert self.overflow_strategy ==
'nullify'` and fails with the assertion error, returning no batch. -/
theorem C10_unknown_strategy_stored_then_assertion_fails (strategy : String)
    (h1 : strategy ≠ "truncate") (h2 : strategy ≠ "raise")
    (h3 : strategy ≠ "nullify") (classWeights : List ℚ)
    (maxPositionEmbeddings : Nat) (encode : String → List Nat) (maxLen : Nat)
    (inputs : List String) (hne : inputs ≠ []) :
    (initScorer strategy classWeights none maxPositionEmbeddings).overflowStrategy
      = strategy
    ∧ tokenize encode maxLen strategy inputs = .error .assertionFailed := by
  refine ⟨rfl, ?_⟩
  simp [tokenize, h1, h2, h3]

/-- Witness for C10 with the strategy string `oops` on the one-element
input list `["x"]`. -/
theorem C10_unknown_strategy_stored_then_assertion_fails_witness :
    (("oops" : String) ≠ "truncate" ∧ ("oops" : String) ≠ "raise"
      ∧ ("oops" : String) ≠ "nullify" ∧ (["x"] : List String) ≠ [])
    ∧ ((initScorer "oops" [1] none 512).overflowStrategy = "oops"
       ∧ tokenize (fun s => List.replicate s.length 0) 5 "oops" ["x"]
           = .error .assertionFailed) :=
  ⟨⟨by decide, by decide, by decide, by decide⟩,
   C10_unknown_strategy_stored_then_assertion_fails "oops" (by decide)
     (by decide) (by decide) [1] 512 (fun s => List.replicate s.length 0) 5
     ["x"] (by decide)⟩

/-- C2: `_score_tokens` returns, at each index whose validity flag is
false, no score (`none`), and at each index whose flag is true, the numeric
score computed by the logits-to-scores reduction at that index; a rejected
item does not abort the rest of the batch (every index still gets an
entry, and valid indices keep their numeric score). The guard `hw` is the
condition under which `_logits_to_scores` does not raise its `IndexError`
(`class_weights` not longer than the class axis). -/
theorem C2_scores_nullified_exactly_at_invalid_flags
    (model : List (List Nat) → List (List ℚ)) (exp : ℚ → ℚ)
    (classWeights : List ℚ) (batch : List (List Nat)) (flags : List Bool)
    (hm : (model batch).length = flags.length)
    (hw : ∀ row ∈ model batch, classWeights.length ≤ row.length)
    (i : Nat) (hi : i < flags.length) :
    ∃ result,
      scoreTokens model exp classWeights (batch, flags) = .ok result
      ∧ result[i]?
          = some (if flags[i]
                  then (logitsToScores exp classWeights (model batch))[i]?
                  else none)
      ∧ (flags[i] = true → ∃ q : ℚ, result[i]? = some (some q)) := by
  have hS : (logitsToScores exp classWeights (model batch)).length
      = flags.length := by
    rw [logitsToScores_length]
    exact hm
  have hiS : i < (logitsToScores exp classWeights (model batch)).length := by
    rw [hS]
    exact hi
  have hmap : ((logitsToScores exp classWeights (model batch)).map
      some).length = flags.length := by
    rw [List.length_map]
    exact hS
  have hr : (nullifyScores
      ((logitsToScores exp classWeights (model batch)).map some) flags)[i]?
      = if flags[i]
        then ((logitsToScores exp classWeights (model batch)).map some)[i]?
        else some none := nullifyScores_getElem? _ flags hmap i hi
  have hmapGet : ((logitsToScores exp classWeights (model batch)).map
      some)[i]?
      = some (some ((logitsToScores exp classWeights (model batch))[i])) := by
    rw [List.getElem?_map, List.getElem?_eq_getElem hiS]
    rfl
  refine ⟨_, scoreTokens_ok model exp classWeights batch flags hw, ?_, ?_⟩
  · rw [hr]
    by_cases hf : flags[i] = true
    · rw [if_pos hf, if_pos hf, hmapGet, List.getElem?_eq_getElem hiS]
    · rw [if_neg hf, if_neg hf]
  · intro hf
    refine ⟨(logitsToScores exp classWeights (model batch))[i], ?_⟩
    rw [hr, if_pos hf, hmapGet]

/-- Witness for C2 on a two-row batch of a two-class model with
two class weights and flags `[true, false]`, at index 1 (the rejected
item). -/
theorem C2_scores_nullified_exactly_at_invalid_flags_witness :
    ((fun b : List (List Nat) => b.map (fun _ => [(1 : ℚ), 2])) [[1], [2]]).length
        = ([true, false] : List Bool).length
    ∧ (∀ row ∈ (fun b : List (List Nat) =>
          b.map (fun _ => [(1 : ℚ), 2])) [[1], [2]],
        ([1, 1] : List ℚ).length ≤ row.length)
    ∧ 1 < ([true, false] : List Bool).length
    ∧ ∃ result,
        scoreTokens (fun b => b.map (fun _ => [(1 : ℚ), 2])) id [1, 1]
          ([[1], [2]], [true, false]) = .ok result
        ∧ result[1]?
            = some (if ([true, false] : List Bool)[1]
                    then (logitsToScores id [1, 1]
                            ((fun b : List (List Nat) =>
                               b.map (fun _ => [(1 : ℚ), 2])) [[1], [2]]))[1]?
                    else none)
        ∧ (([true, false] : List Bool)[1] = true →
            ∃ q : ℚ, result[1]? = some (some q)) :=
  ⟨by decide, by decide, by decide,
   C2_scores_nullified_exactly_at_invalid_flags
     (fun b => b.map (fun _ => [(1 : ℚ), 2])) id [1, 1] [[1], [2]]
     [true, false] (by decide) (by decide) 1 (by decide)⟩

/-- C3: under the `truncate` overflow strategy, `_tokenize` marks every
input valid (the flag list is all-true, with no per-item validation), and
every entry of the final result is a numeric score, never no score. The
guard `hw` is the condition under which `_logits_to_scores` does not raise
its `IndexError` on this batch's logits. -/
theorem C3_truncate_all_valid_all_scored (encode : String → List Nat)
    (maxLen : Nat) (model : List (List Nat) → List (List ℚ)) (exp : ℚ → ℚ)
    (classWeights : List ℚ) (inputs : List String)
    (hm : ∀ b, (model b).length = b.length)
    (hw : ∀ row ∈ model (batchEncode encode maxLen inputs),
        classWeights.length ≤ row.length) :
    tokenize encode maxLen "truncate" inputs
      = .ok (batchEncode encode maxLen inputs,
             List.replicate inputs.length true)
    ∧ ∃ result,
        scoreTexts encode maxLen "truncate" model exp classWeights inputs
          = .ok result
        ∧ result.length = inputs.length
        ∧ ∀ i, i < inputs.length → ∃ q : ℚ, result[i]? = some (some q) := by
  have htok : tokenize encode maxLen "truncate" inputs
      = .ok (batchEncode encode maxLen inputs,
             List.replicate inputs.length true) := by
    simp [tokenize]
  have hst : scoreTexts encode maxLen "truncate" model exp classWeights inputs
      = scoreTokens model exp classWeights
          (batchEncode encode maxLen inputs,
           List.replicate inputs.length true) := by
    simp [scoreTexts, htok]
  have hS : (logitsToScores exp classWeights
      (model (batchEncode encode maxLen inputs))).length = inputs.length := by
    rw [logitsToScores_length, hm, batchEncode_length]
  refine ⟨htok,
    nullifyScores
      ((logitsToScores exp classWeights
          (model (batchEncode encode maxLen inputs))).map some)
      (List.replicate inputs.length true),
    hst.trans (scoreTokens_ok model exp classWeights
      (batchEncode encode maxLen inputs)
      (List.replicate inputs.length true) hw),
    ?_, ?_⟩
  · calc (nullifyScores
          ((logitsToScores exp classWeights
              (model (batchEncode encode maxLen inputs))).map some)
          (List.replicate inputs.length true)).length
        = ((logitsToScores exp classWeights
             (model (batchEncode encode maxLen inputs))).map some).length :=
          nullifyScores_length _ _
      _ = inputs.length := by rw [List.length_map, hS]
  · intro i hi
    have hiS : i < (logitsToScores exp classWeights
        (model (batchEncode encode maxLen inputs))).length := by
      rw [hS]
      exact hi
    have hmap : ((logitsToScores exp classWeights
        (model (batchEncode encode maxLen inputs))).map some).length
        = (List.replicate inputs.length true).length := by
      rw [List.length_map, hS, List.length_replicate]
    have hif : i < (List.replicate inputs.length true).length := by
      rw [List.length_replicate]
      exact hi
    have hr := nullifyScores_getElem?
      ((logitsToScores exp classWeights
          (model (batchEncode encode maxLen inputs))).map some)
      (List.replicate inputs.length true) hmap i hif
    refine ⟨(logitsToScores exp classWeights
        (model (batchEncode encode maxLen inputs)))[i], ?_⟩
    rw [hr, if_pos (by simp), List.getElem?_map,
        List.getElem?_eq_getElem hiS]
    rfl

/-- Witness for C3 with a one-id-per-character tokenizer, limit 2, one
over-long input, and a constant two-class model with two class weights. -/
theorem C3_truncate_all_valid_all_scored_witness :
    (∀ b : List (List Nat), ((b.map (fun _ => [(1 : ℚ), 2])).length = b.length))
    ∧ (∀ row ∈ (fun b : List (List Nat) => b.map (fun _ => [(1 : ℚ), 2]))
          (batchEncode (fun s => List.replicate s.length 0) 2
            ["hi", "toolong"]),
        ([1, 1] : List ℚ).length ≤ row.length)
    ∧ (tokenize (fun s => List.replicate s.length 0) 2 "truncate"
          ["hi", "toolong"]
        = .ok (batchEncode (fun s => List.replicate s.length 0) 2
                 ["hi", "toolong"],
               List.replicate (["hi", "toolong"] : List String).length true)
       ∧ ∃ result,
           scoreTexts (fun s => List.replicate s.length 0) 2 "truncate"
             (fun b => b.map (fun _ => [(1 : ℚ), 2])) id [1, 1]
             ["hi", "toolong"] = .ok result
           ∧ result.length = (["hi", "toolong"] : List String).length
           ∧ ∀ i, i < (["hi", "toolong"] : List String).length →
               ∃ q : ℚ, result[i]? = some (some q)) :=
  ⟨fun b => by simp, by decide,
   C3_truncate_all_valid_all_scored (fun s => List.replicate s.length 0) 2
     (fun b => b.map (fun _ => [(1 : ℚ), 2])) id [1, 1] ["hi", "toolong"]
     (fun b => by simp) (by decide)⟩

/-- C4: the result is aligned with the inputs: `_validate_inputs` returns
one flag per input with the flag at index `i` being the validation outcome
for input `i`, and the (spec-modelled) pipeline under `nullify` returns one
entry per input, the entry at index `i` being the score of row `i` when
input `i` validates and no score otherwise. The guard `hw` is the
condition under which `_logits_to_scores` does not raise its `IndexError`
on this batch's logits. -/
theorem C4_result_same_length_and_order_as_inputs
    (encode : String → List Nat) (maxLen : Nat)
    (model : List (List Nat) → List (List ℚ)) (exp : ℚ → ℚ)
    (classWeights : List ℚ) (inputs : List String)
    (hm : ∀ b, (model b).length = b.length)
    (hw : ∀ row ∈ model (batchEncode encode maxLen inputs),
        classWeights.length ≤ row.length) :
    (validateInputs encode maxLen inputs).length = inputs.length
    ∧ (∀ i, (hi : i < inputs.length) →
        (validateInputs encode maxLen inputs)[i]?
          = some (decide ((encode inputs[i]).length ≤ maxLen)))
    ∧ ∃ result,
        scoreTexts encode maxLen "nullify" model exp classWeights inputs
          = .ok result
        ∧ result.length = inputs.length
        ∧ ∀ i, (hi : i < inputs.length) →
            result[i]?
              = some (if (encode inputs[i]).length ≤ maxLen
                      then (logitsToScores exp classWeights
                              (model (batchEncode encode maxLen inputs)))[i]?
                      else none) := by
  have htok : tokenize encode maxLen "nullify" inputs
      = .ok (batchEncode encode maxLen inputs,
             validateInputs encode maxLen inputs) := by
    unfold tokenize
    rw [if_neg (by decide), if_neg ?hraise, if_pos rfl]
    case hraise =>
      intro hc
      exact absurd hc.1 (by decide)
  have hst : scoreTexts encode maxLen "nullify" model exp classWeights inputs
      = scoreTokens model exp classWeights
          (batchEncode encode maxLen inputs,
           validateInputs encode maxLen inputs) := by
    simp [scoreTexts, htok]
  have hS : (logitsToScores exp classWeights
      (model (batchEncode encode maxLen inputs))).length = inputs.length := by
    rw [logitsToScores_length, hm, batchEncode_length]
  have hV : (validateInputs encode maxLen inputs).length = inputs.length :=
    validateInputs_length _ _ _
  refine ⟨hV, fun i hi => validateInputs_getElem? encode maxLen inputs i hi,
    nullifyScores
      ((logitsToScores exp classWeights
          (model (batchEncode encode maxLen inputs))).map some)
      (validateInputs encode maxLen inputs),
    hst.trans (scoreTokens_ok model exp classWeights
      (batchEncode encode maxLen inputs)
      (validateInputs encode maxLen inputs) hw),
    ?_, ?_⟩
  · calc (nullifyScores
          ((logitsToScores exp classWeights
              (model (batchEncode encode maxLen inputs))).map some)
          (validateInputs encode maxLen inputs)).length
        = ((logitsToScores exp classWeights
             (model (batchEncode encode maxLen inputs))).map some).length :=
          nullifyScores_length _ _
      _ = inputs.length := by rw [List.length_map, hS]
  · intro i hi
    have hiS : i < (logitsToScores exp classWeights
        (model (batchEncode encode maxLen inputs))).length := by
      rw [hS]
      exact hi
    have hiV : i < (validateInputs encode maxLen inputs).length := by
      rw [hV]
      exact hi
    have hmap : ((logitsToScores exp classWeights
        (model (batchEncode encode maxLen inputs))).map some).length
        = (validateInputs encode maxLen inputs).length := by
      rw [List.length_map, hS, hV]
    have hr := nullifyScores_getElem?
      ((logitsToScores exp classWeights
          (model (batchEncode encode maxLen inputs))).map some)
      (validateInputs encode maxLen inputs) hmap i hiV
    have hVi : (validateInputs encode maxLen inputs)[i]
        = decide ((encode inputs[i]).length ≤ maxLen) := by
      unfold validateInputs
      rw [List.getElem_map]
    rw [hr, hVi]
    by_cases hp : (encode inputs[i]).length ≤ maxLen
    · rw [if_pos (by simpa using hp), if_pos hp, List.getElem?_map,
          List.getElem?_eq_getElem hiS]
      rfl
    · rw [if_neg (by simpa using hp), if_neg hp]

/-- Witness for C4 with a one-id-per-character tokenizer, limit 3, one
valid and one over-long input, and a constant two-class model with two
class weights. -/
theorem C4_result_same_length_and_order_as_inputs_witness :
    (∀ b : List (List Nat), ((b.map (fun _ => [(1 : ℚ), 2])).length = b.length))
    ∧ (∀ row ∈ (fun b : List (List Nat) => b.map (fun _ => [(1 : ℚ), 2]))
          (batchEncode (fun s => List.replicate s.length 0) 3
            ["ab", "toolong"]),
        ([1, 1] : List ℚ).length ≤ row.length)
    ∧ ((validateInputs (fun s => List.replicate s.length 0) 3
          ["ab", "toolong"]).length = (["ab", "toolong"] : List String).length
       ∧ (∀ i, (hi : i < (["ab", "toolong"] : List String).length) →
           (validateInputs (fun s => List.replicate s.length 0) 3
              ["ab", "toolong"])[i]?
             = some (decide ((List.replicate
                 (["ab", "toolong"] : List String)[i].length 0).length ≤ 3)))
       ∧ ∃ result,
           scoreTexts (fun s => List.replicate s.length 0) 3 "nullify"
             (fun b => b.map (fun _ => [(1 : ℚ), 2])) id [1, 1]
             ["ab", "toolong"] = .ok result
           ∧ result.length = (["ab", "toolong"] : List String).length
           ∧ ∀ i, (hi : i < (["ab", "toolong"] : List String).length) →
               result[i]?
                 = some (if (List.replicate
                       (["ab", "toolong"] : List String)[i].length 0).length ≤ 3
                         then (logitsToScores id [1, 1]
                                 ((fun b : List (List Nat)
                                     => b.map (fun _ => [(1 : ℚ), 2]))
                                   (batchEncode
                                     (fun s => List.replicate s.length 0) 3
                                     ["ab", "toolong"])))[i]?
                         else none)) :=
  ⟨fun b => by simp, by decide,
   C4_result_same_length_and_order_as_inputs
     (fun s => List.replicate s.length 0) 3
     (fun b => b.map (fun _ => [(1 : ℚ), 2])) id [1, 1] ["ab", "toolong"]
     (fun b => by simp) (by decide)⟩

/-- C5: `_logits_to_scores` computes each item's score as the dot product
of that item's softmax probability vector and `class_weights`; in
particular the dot product of the probability vector `[0.2, 0.3, 0.5]`
with the weights `[0, 0.5, 1]` is `0.65`. -/
theorem C5_score_is_softmax_dot_class_weights (exp : ℚ → ℚ)
    (classWeights : List ℚ) (logits : List (List ℚ))
    (h : ∀ row ∈ logits, row.length = classWeights.length) :
    logitsToScoresE exp classWeights logits
      = .ok (logits.map
          (fun row => specDotProduct (softmaxRow exp row) classWeights))
    ∧ specDotProduct [1/5, 3/10, 1/2] [0, 1/2, 1] = 13/20 := by
  constructor
  · have hcond : ∀ row ∈ logits, classWeights.length ≤ row.length :=
      fun row hr => le_of_eq (h row hr).symm
    rw [logitsToScoresE, if_pos hcond]
    unfold logitsToScores
    simp only [weightedSum_eq_specDotProduct]
  · norm_num [specDotProduct]

/-- Witness for C5 at the logits row `[2, 3, 5]` with the identity as the
abstract exponential, whose softmax is exactly `[0.2, 0.3, 0.5]`. -/
theorem C5_score_is_softmax_dot_class_weights_witness :
    (∀ row ∈ [[(2 : ℚ), 3, 5]], row.length = ([0, 1/2, 1] : List ℚ).length)
    ∧ (logitsToScoresE id [0, 1/2, 1] [[(2 : ℚ), 3, 5]]
         = .ok ([[(2 : ℚ), 3, 5]].map
             (fun row => specDotProduct (softmaxRow id row) [0, 1/2, 1]))
       ∧ specDotProduct [1/5, 3/10, 1/2] [0, 1/2, 1] = 13/20) :=
  ⟨by decide,
   C5_score_is_softmax_dot_class_weights id [0, 1/2, 1] [[(2 : ℚ), 3, 5]]
     (by decide)⟩

/-- C6 counterexample: a `class_weights` of length 1 on a two-class logits
row is a length mismatch, yet `_logits_to_scores` silently computes a score
(no error of any kind, let alone an `InvalidConfigurationError`, which the
code does not define), and an unrecognized `overflow_strategy` passes
construction unvalidated — refuting the claim that such configurations are
detected and raised as `InvalidConfigurationError`. -/
theorem C6_counterexample_mismatch_silently_degraded :
    logitsToScoresE (fun _ => (1 : ℚ)) [1] [[0, 0]] = .ok [1/2]
    ∧ (initScorer "bogus" [1] none 512).overflowStrategy = "bogus" := by
  constructor
  · rw [logitsToScoresE, if_pos (by decide)]
    have : logitsToScores (fun _ => (1 : ℚ)) [1] [[0, 0]] = [1/2] := by
      simp [logitsToScores, weightedSum, softmaxRow]
    rw [this]
  · rfl

/-- C6 (amended): no configuration validation exists: construction stores
any `overflow_strategy` string; a `class_weights` longer than the class
count fails at first scoring with an `IndexError` (exactly then); a
`class_weights` not longer than the class count — in particular one
strictly shorter, a length mismatch — is silently accepted and scored; an
unrecognized strategy only surfaces as an `AssertionError` at the first
`_tokenize` call. -/
theorem C6_amended_no_configuration_validation (exp : ℚ → ℚ) (w : List ℚ)
    (logits : List (List ℚ)) (strategy : String) (classWeights : List ℚ)
    (maxPositionEmbeddings : Nat) (encode : String → List Nat) (maxLen : Nat)
    (inputs : List String) :
    (logitsToScoresE exp w logits = .error .indexError
       ↔ ¬ ∀ row ∈ logits, w.length ≤ row.length)
    ∧ ((∀ row ∈ logits, w.length ≤ row.length) →
        logitsToScoresE exp w logits = .ok (logitsToScores exp w logits))
    ∧ (initScorer strategy classWeights none
         maxPositionEmbeddings).overflowStrategy = strategy
    ∧ (strategy ≠ "truncate" → strategy ≠ "raise" → strategy ≠ "nullify" →
        tokenize encode maxLen strategy inputs = .error .assertionFailed) := by
  refine ⟨?_, ?_, rfl, ?_⟩
  · constructor
    · intro he hc
      rw [logitsToScoresE, if_pos hc] at he
      exact Except.noConfusion he
    · intro hnc
      rw [logitsToScoresE, if_neg hnc]
  · intro hc
    rw [logitsToScoresE, if_pos hc]
  · intro h1 h2 h3
    simp [tokenize, h1, h2, h3]

/-- Witness for the amended C6: weights `[1, 2, 3]` on a two-class row
raise the index error, weights `[1]` on the same row are silently scored,
the strategy string `bogus` is stored at construction and only fails as an
assertion in `_tokenize`. -/
theorem C6_amended_no_configuration_validation_witness :
    logitsToScoresE (fun _ => (1 : ℚ)) [1, 2, 3] [[0, 0]] = .error .indexError
    ∧ logitsToScoresE (fun _ => (1 : ℚ)) [1] [[0, 0]]
        = .ok (logitsToScores (fun _ => (1 : ℚ)) [1] [[0, 0]])
    ∧ (initScorer "bogus" [1] none 7).overflowStrategy = "bogus"
    ∧ tokenize (fun _ => ([] : List Nat)) 3 "bogus" ["x"]
        = .error .assertionFailed :=
  ⟨(C6_amended_no_configuration_validation (fun _ => (1 : ℚ)) [1, 2, 3]
      [[0, 0]] "bogus" [1] 7 (fun _ => ([] : List Nat)) 3 ["x"]).1.mpr
      (by decide),
   (C6_amended_no_configuration_validation (fun _ => (1 : ℚ)) [1] [[0, 0]]
      "bogus" [1] 7 (fun _ => ([] : List Nat)) 3 ["x"]).2.1 (by decide),
   (C6_amended_no_configuration_validation (fun _ => (1 : ℚ)) [1] [[0, 0]]
      "bogus" [1] 7 (fun _ => ([] : List Nat)) 3 ["x"]).2.2.1,
   (C6_amended_no_configuration_validation (fun _ => (1 : ℚ)) [1] [[0, 0]]
      "bogus" [1] 7 (fun _ => ([] : List Nat)) 3 ["x"]).2.2.2 (by decide)
      (by decide) (by decide)⟩

theorem pySlice_length {α : Type} (l : List α) (s e : Nat) :
    (pySlice l s e).length = min (e - s) (l.length - s) := by
  simp [pySlice]

theorem pySlice_getElem? {α : Type} (l : List α) (s e j : Nat)
    (hj : j < (pySlice l s e).length) :
    (pySlice l s e)[j]? = l[s + j]? := by
  have hje : j < e - s := by
    rw [pySlice_length] at hj
    exact Nat.lt_of_lt_of_le hj (Nat.min_le_left _ _)
  unfold pySlice
  rw [List.getElem?_take_of_lt hje, List.getElem?_drop]

/-- C8: `_slice_tokens` yields a self-consistent smaller batch: every
key's array and the flag list are sliced over the same index range, so
`len(batch) == len(validity flags)` is preserved, and the entry at
position `j` of any slice corresponds to position `start + j` of the
original. -/
theorem C8_slice_preserves_alignment {α : Type}
    (batch : List (String × List α)) (flags : List Bool) (s e : Nat)
    (h : ∀ kv ∈ batch, kv.2.length = flags.length) :
    (∀ kv ∈ (sliceTokens (batch, flags) s e).1,
        kv.2.length = (sliceTokens (batch, flags) s e).2.length)
    ∧ (∀ j, j < (sliceTokens (batch, flags) s e).2.length →
        (sliceTokens (batch, flags) s e).2[j]? = flags[s + j]?)
    ∧ (∀ kv ∈ batch, ∀ j, j < (sliceTokens (batch, flags) s e).2.length →
        (pySlice kv.2 s e)[j]? = kv.2[s + j]?) := by
  refine ⟨?_, ?_, ?_⟩
  · intro kv hkv
    simp only [sliceTokens] at hkv ⊢
    obtain ⟨kv0, hkv0, rfl⟩ := List.mem_map.mp hkv
    simp [pySlice_length, h kv0 hkv0]
  · intro j hj
    exact pySlice_getElem? flags s e j hj
  · intro kv hkv j hj
    apply pySlice_getElem?
    simp only [sliceTokens] at hj
    rw [pySlice_length] at hj ⊢
    rw [h kv hkv]
    exact hj

/-- Witness for C8 on a two-key batch of three rows with flags
`[true, false, true]`, sliced over `[1:3]`. -/
theorem C8_slice_preserves_alignment_witness :
    (∀ kv ∈ ([("input_ids", [[1], [2], [3]]),
              ("attention_mask", [[9], [8], [7]])] :
        List (String × List (List Nat))),
      kv.2.length = ([true, false, true] : List Bool).length)
    ∧ ((∀ kv ∈ (sliceTokens
          (([("input_ids", [[1], [2], [3]]),
             ("attention_mask", [[9], [8], [7]])] :
              List (String × List (List Nat))),
           [true, false, true]) 1 3).1,
        kv.2.length = (sliceTokens
          (([("input_ids", [[1], [2], [3]]),
             ("attention_mask", [[9], [8], [7]])] :
              List (String × List (List Nat))),
           [true, false, true]) 1 3).2.length)
       ∧ (∀ j, j < (sliceTokens
            (([("input_ids", [[1], [2], [3]]),
               ("attention_mask", [[9], [8], [7]])] :
                List (String × List (List Nat))),
             [true, false, true]) 1 3).2.length →
          (sliceTokens
            (([("input_ids", [[1], [2], [3]]),
               ("attention_mask", [[9], [8], [7]])] :
                List (String × List (List Nat))),
             [true, false, true]) 1 3).2[j]?
            = ([true, false, true] : List Bool)[1 + j]?)
       ∧ (∀ kv ∈ ([("input_ids", [[1], [2], [3]]),
                   ("attention_mask", [[9], [8], [7]])] :
            List (String × List (List Nat))),
          ∀ j, j < (sliceTokens
            (([("input_ids", [[1], [2], [3]]),
               ("attention_mask", [[9], [8], [7]])] :
                List (String × List (List Nat))),
             [true, false, true]) 1 3).2.length →
            (pySlice kv.2 1 3)[j]? = kv.2[1 + j]?)) :=
  ⟨by decide,
   C8_slice_preserves_alignment
     [("input_ids", [[1], [2], [3]]), ("attention_mask", [[9], [8], [7]])]
     [true, false, true] 1 3 (by decide)⟩
